import Mathlib

/-!
Shallow embedding of the tigris per-tenant quota enforcement subsystem
(package `quota` of the repository): per-tenant token-bucket limiters, a
cached storage size refreshed on a time-based schedule, and a debounced
metrics-emission path.  Stateful Go code becomes explicit state passing;
`int64` values become `Int`; collaborator calls (catalog, transaction
manager) become explicit oracle parameters; the metric emissions become an
explicit trace.  Sequential executions model the code with each critical
section serialized by its mutex.
-/

namespace Quota

/-- Token-bucket limiter as consumed by the quota manager
(`golang.org/x/time/rate`, an external collaborator): `limitPerSec` is the
refill rate passed to `rate.NewLimiter`, `burst` the bucket cap, `tokens`
the tokens currently available.  `AllowN` consumes `n` tokens when at least
`n` are available and otherwise fails leaving the bucket unchanged; a fresh
limiter starts with a full bucket. -/
structure Limiter where
  limitPerSec : Int
  burst : Int
  tokens : Int
deriving Repr, DecidableEq

def Limiter.allowN (l : Limiter) (n : Int) : Bool × Limiter :=
  if n ≤ l.tokens then (true, { l with tokens := l.tokens - n }) else (false, l)

def Limiter.allow (l : Limiter) : Bool × Limiter :=
  l.allowN 1

/-- The quota `State` of one tenant (struct `State` in the source): three
limiters, the cached size, and the two debounce timestamps.  The mutexes
`SizeLock` and `TenantSizeLock` serialize the slow paths and are implicit in
the sequential embedding. -/
structure State where
  Rate : Limiter
  WriteThroughput : Limiter
  ReadThroughput : Limiter
  Size : Int
  SizeUpdateAt : Int
  TenantSizeUpdateAt : Int
deriving Repr, DecidableEq

/-- `config.QuotaConfig` as consumed by the quota package: the fields read
by `newManager`, `getState`, `check*` and `updateTenantMetrics`. -/
structure QuotaConfig where
  Enabled : Bool
  RateLimit : Int
  WriteThroughputLimit : Int
  ReadThroughputLimit : Int
  DataSizeLimit : Int
  LimitUpdateInterval : Int
  TenantSizeRefreshInterval : Int
deriving Repr, DecidableEq

/-- The errors surfaced by `Allow`: the three quota errors declared at the
top of the quota package, or an error propagated verbatim from a
collaborator (represented by a numeric code). -/
inductive QuotaError where
  | rateExceeded
  | throughputExceeded
  | storageSizeExceeded
  | collab (e : Nat)
deriving Repr, DecidableEq

/-- `getState` on a cache miss: the fresh `State` built by `Manager.getState`.
`rate.NewLimiter(rate.Limit(cfg.RateLimit), 10)` gives the rate bucket a
burst of 10; the two throughput buckets use the configured limit as burst;
a new limiter starts with a full bucket; the remaining fields start at the
zero value. -/
def newState (c : QuotaConfig) : State where
  Rate := { limitPerSec := c.RateLimit, burst := 10, tokens := 10 }
  WriteThroughput :=
    { limitPerSec := c.WriteThroughputLimit, burst := c.WriteThroughputLimit,
      tokens := c.WriteThroughputLimit }
  ReadThroughput :=
    { limitPerSec := c.ReadThroughputLimit, burst := c.ReadThroughputLimit,
      tokens := c.ReadThroughputLimit }
  Size := 0
  SizeUpdateAt := 0
  TenantSizeUpdateAt := 0

/-- Outcome of the enforcement-path catalog interaction inside
`checkStorage`: `m.tenantMgr.GetTenant` may fail, then `t.Size` may fail,
otherwise the authoritative tenant size is returned. -/
inductive SizeOracle where
  | getTenantErr (e : Nat)
  | sizeErr (e : Nat)
  | ok (dsz : Int)
deriving Repr, DecidableEq

/-- Result of `check` / `checkStorage`: the returned error (`none` is Go's
`nil`), the tenant state after the call, and how many catalog size queries
the call issued (0 or 1). -/
structure StorageResult where
  err : Option QuotaError
  state : State
  queries : Nat
deriving Repr, DecidableEq

/-- The body of `Manager.checkStorage` from the `s.SizeLock.Lock()` on: the
staleness predicate is re-tested under the lock; on staleness the timestamp
is stored first, then the tenant and its size are queried (each error
propagating to the caller), then the size is cached; finally the cached
size plus the request size is compared against the limit. -/
def checkStorageSlow (cfg : QuotaConfig) (oracle : SizeOracle) (now : Int)
    (s : State) (size : Int) : StorageResult :=
  if s.SizeUpdateAt + cfg.LimitUpdateInterval ≤ now then
    let s1 := { s with SizeUpdateAt := now }
    match oracle with
    | .getTenantErr e => { err := some (.collab e), state := s1, queries := 1 }
    | .sizeErr e => { err := some (.collab e), state := s1, queries := 1 }
    | .ok dsz =>
      let s2 := { s1 with Size := dsz }
      if cfg.DataSizeLimit ≤ s2.Size + size then
        { err := some .storageSizeExceeded, state := s2, queries := 1 }
      else
        { err := none, state := s2, queries := 1 }
  else
    if cfg.DataSizeLimit ≤ s.Size + size then
      { err := some .storageSizeExceeded, state := s, queries := 0 }
    else
      { err := none, state := s, queries := 0 }

/-- `Manager.checkStorage`: fast path deciding on the cached size when the
timestamp is fresh (`now < SizeUpdateAt + LimitUpdateInterval`), slow path
under `SizeLock` otherwise.  The comparison is `sz + size >= DataSizeLimit`,
written here as `DataSizeLimit ≤ sz + size`. -/
def checkStorage (cfg : QuotaConfig) (oracle : SizeOracle) (now : Int)
    (s : State) (size : Int) : StorageResult :=
  if now < s.SizeUpdateAt + cfg.LimitUpdateInterval then
    if cfg.DataSizeLimit ≤ s.Size + size then
      { err := some .storageSizeExceeded, state := s, queries := 0 }
    else
      { err := none, state := s, queries := 0 }
  else
    checkStorageSlow cfg oracle now s size

/-- `Manager.check`: consume one token from `Rate` (failing with
`ErrRateExceeded`), then `size` tokens from `WriteThroughput` (failing with
`ErrThroughputExceeded`), then delegate to `checkStorage`. -/
def check (cfg : QuotaConfig) (oracle : SizeOracle) (now : Int)
    (s : State) (size : Int) : StorageResult :=
  let rateRes := s.Rate.allow
  let s1 := { s with Rate := rateRes.2 }
  if !rateRes.1 then
    { err := some .rateExceeded, state := s1, queries := 0 }
  else
    let wtRes := s1.WriteThroughput.allowN size
    let s2 := { s1 with WriteThroughput := wtRes.2 }
    if !wtRes.1 then
      { err := some .throughputExceeded, state := s2, queries := 0 }
    else
      checkStorage cfg oracle now s2 size

/-- One metric emission: `UpdateNameSpaceSizeMetrics`, `UpdateDbSizeMetrics`
or `UpdateCollectionSizeMetrics` (the tenant name is fixed per walk and
elided). -/
inductive Emission where
  | ns (sz : Int)
  | db (name : String) (sz : Int)
  | coll (dbName : String) (collName : String) (sz : Int)
deriving Repr, DecidableEq

/-- One collection as seen by the metrics walk: its name and the value
returned by `CollectionSize` (an error there is only logged by
`getCollSize`, which still returns the value). -/
structure CollData where
  name : String
  size : Int
deriving Repr, DecidableEq

/-- One database as seen by the metrics walk: `getErr` is a `GetDatabase`
failure, `size` the value returned by `DatabaseSize` (errors there are only
logged by `getDbSize`). -/
structure DbData where
  name : String
  getErr : Option Nat
  size : Int
  colls : List CollData
deriving Repr, DecidableEq

/-- The tenant as seen by the metrics walk: its databases in
`ListDatabases` order and the value returned by the final `tenant.Size`
call (an error there is only logged; the value is emitted regardless). -/
structure TenantData where
  dbs : List DbData
  tenantSize : Int
deriving Repr, DecidableEq

/-- Result of `GetTenant` on the metrics path. -/
inductive TenantLookup where
  | err (e : Nat)
  | ok (t : TenantData)
deriving Repr, DecidableEq

/-- The collaborators consulted by `updateTenantSize`: whether `m.txMgr` is
nil, and the catalog's answer to `GetTenant`. -/
structure MetricCatalog where
  txMgrNil : Bool
  getTenant : TenantLookup
deriving Repr, DecidableEq

/-- The emissions of one iteration of the database walk: the database size
metric followed by one collection size metric per collection. -/
def dbEmissions (d : DbData) : List Emission :=
  Emission.db d.name d.size :: d.colls.map (fun c => Emission.coll d.name c.name c.size)

/-- The database walk of `updateTenantSize`: emissions in order, and
whether the walk ran to completion (`GetDatabase` failure aborts the whole
function with `return`). -/
def walkDbs : List DbData → List Emission × Bool
  | [] => ([], true)
  | d :: rest =>
    match d.getErr with
    | some _ => ([], false)
    | none =>
      let r := walkDbs rest
      (dbEmissions d ++ r.1, r.2)

/-- `Manager.updateTenantSize`: returns early (emitting nothing) when the
transaction manager is nil or `GetTenant` fails; aborts mid-walk when a
`GetDatabase` fails; only a completed walk reaches the final
`UpdateNameSpaceSizeMetrics` call with the re-read tenant size. -/
def updateTenantSize (mc : MetricCatalog) : List Emission :=
  if mc.txMgrNil then []
  else
    match mc.getTenant with
    | .err _ => []
    | .ok t =>
      let w := walkDbs t.dbs
      if w.2 then w.1 ++ [Emission.ns t.tenantSize] else w.1

/-- `Manager.updateTenantMetrics`: when
`now >= TenantSizeUpdateAt + TenantSizeRefreshInterval`, take
`TenantSizeLock`, store the timestamp, emit the cached size as the
namespace metric, then run `updateTenantSize`; otherwise do nothing. -/
def updateTenantMetrics (cfg : QuotaConfig) (mc : MetricCatalog) (now : Int)
    (s : State) : State × List Emission :=
  if s.TenantSizeUpdateAt + cfg.TenantSizeRefreshInterval ≤ now then
    ({ s with TenantSizeUpdateAt := now }, Emission.ns s.Size :: updateTenantSize mc)
  else
    (s, [])

/-- Result of `Allow`: the returned error, the tenant state after the call,
the number of enforcement-path catalog size queries, and the metric
emissions. -/
structure AllowResult where
  err : Option QuotaError
  state : State
  queries : Nat
  emissions : List Emission
deriving Repr, DecidableEq

/-- The package-level `Allow`: always run the metric-refresh debounce
first; then consult `config.DefaultConfig.Quota.Enabled` (the process-wide
default configuration, modelled as `defaultCfg`, distinct from the
`mgrCfg` stored in the manager by `Init`); when disabled return `nil`,
otherwise run `Manager.check` with the manager's configuration. -/
def Allow (defaultCfg : QuotaConfig) (mgrCfg : QuotaConfig) (mc : MetricCatalog)
    (oracle : SizeOracle) (now : Int) (s : State) (reqSize : Int) : AllowResult :=
  let m := updateTenantMetrics mgrCfg mc now s
  if !defaultCfg.Enabled then
    { err := none, state := m.1, queries := 0, emissions := m.2 }
  else
    let r := check mgrCfg oracle now m.1 reqSize
    { err := r.err, state := r.state, queries := r.queries, emissions := m.2 }

/-- One storage check of a sequential execution: its clock reading, the
catalog's answer for it, and its request size. -/
structure StorageCall where
  now : Int
  oracle : SizeOracle
  reqSize : Int
deriving Repr, DecidableEq

/-- A sequence of storage checks on one tenant state, serialized (the order
in which `SizeLock` admits them): final state and total number of catalog
size queries issued. -/
def runStorage (cfg : QuotaConfig) : List StorageCall → State → State × Nat
  | [], s => (s, 0)
  | cl :: rest, s =>
    let r := checkStorage cfg cl.oracle cl.now s cl.reqSize
    let t := runStorage cfg rest r.state
    (t.1, r.queries + t.2)

/-- One operation on a tenant state: an `Allow` call (with its global
config, catalogs and request size) or a bare metrics refresh. -/
inductive ManagerOp where
  | admission (dc : QuotaConfig) (mc : MetricCatalog) (o : SizeOracle) (reqSize : Int)
  | metricsRefresh (mc : MetricCatalog)
deriving Repr

/-- Apply one timestamped operation to the tenant state. -/
def stepOp (c : QuotaConfig) (s : State) : Int × ManagerOp → State
  | (now, ManagerOp.admission dc mc o reqSize) => (Allow dc c mc o now s reqSize).state
  | (now, ManagerOp.metricsRefresh mc) => (updateTenantMetrics c mc now s).1

/-- Run a timestamped sequence of operations. -/
def runOps (c : QuotaConfig) : List (Int × ManagerOp) → State → State
  | [], s => s
  | p :: rest, s => runOps c rest (stepOp c s p)

/-- The emissions of a database walk that visits every database. -/
def allDbEmissions : List DbData → List Emission
  | [] => []
  | d :: rest => dbEmissions d ++ allDbEmissions rest

/-! Sample inputs used by the witnesses and counterexamples. -/

def sampleCfgOn : QuotaConfig :=
  { Enabled := true, RateLimit := 100, WriteThroughputLimit := 1000,
    ReadThroughputLimit := 1000, DataSizeLimit := 1000000,
    LimitUpdateInterval := 60, TenantSizeRefreshInterval := 60 }

def sampleCfgOff : QuotaConfig :=
  { sampleCfgOn with Enabled := false }

def sampleState : State :=
  newState sampleCfgOn

def cexState : State :=
  { newState sampleCfgOn with Size := 5 }

def sampleTenant : TenantData :=
  { dbs := [{ name := "db1", getErr := none, size := 7,
              colls := [{ name := "coll1", size := 4 }] }],
    tenantSize := 11 }

def sampleCatalog : MetricCatalog :=
  { txMgrNil := false, getTenant := TenantLookup.ok sampleTenant }

def cexCatalog : MetricCatalog :=
  { txMgrNil := false, getTenant := TenantLookup.err 3 }

def sampleCalls : List StorageCall :=
  [{ now := 100, oracle := SizeOracle.ok 5, reqSize := 1 },
   { now := 110, oracle := SizeOracle.ok 6, reqSize := 2 },
   { now := 120, oracle := SizeOracle.getTenantErr 3, reqSize := 1 }]

def sampleOps : List (Int × ManagerOp) :=
  [(100, ManagerOp.admission sampleCfgOn sampleCatalog (SizeOracle.ok 5) 1),
   (110, ManagerOp.metricsRefresh sampleCatalog)]

/-! Helper lemmas shared by several results. -/

/-- The state written back by `updateTenantMetrics` differs from its input
at most in `TenantSizeUpdateAt`. -/
lemma updateTenantMetrics_fst_frame (c : QuotaConfig) (mc : MetricCatalog)
    (now : Int) (s : State) :
    (updateTenantMetrics c mc now s).1.Rate = s.Rate ∧
    (updateTenantMetrics c mc now s).1.WriteThroughput = s.WriteThroughput ∧
    (updateTenantMetrics c mc now s).1.ReadThroughput = s.ReadThroughput ∧
    (updateTenantMetrics c mc now s).1.Size = s.Size ∧
    (updateTenantMetrics c mc now s).1.SizeUpdateAt = s.SizeUpdateAt := by
  unfold updateTenantMetrics
  split <;> simp

/-- The state written back by `updateTenantMetrics` does not depend on the
catalog: only the emissions do. -/
lemma updateTenantMetrics_fst_indep (c : QuotaConfig) (mc mc' : MetricCatalog)
    (now : Int) (s : State) :
    (updateTenantMetrics c mc now s).1 = (updateTenantMetrics c mc' now s).1 := by
  unfold updateTenantMetrics
  split <;> rfl

/-- A fresh timestamp takes the fast path: no query, state untouched. -/
lemma checkStorage_fast (cfg : QuotaConfig) (o : SizeOracle) (now : Int)
    (s : State) (r : Int) (h : now < s.SizeUpdateAt + cfg.LimitUpdateInterval) :
    (checkStorage cfg o now s r).queries = 0 ∧ (checkStorage cfg o now s r).state = s := by
  unfold checkStorage
  rw [if_pos h]
  split <;> simp

/-- The locked re-test: a caller that reaches the slow path but observes a
fresh timestamp under the lock skips the refresh entirely. -/
lemma checkStorageSlow_fresh (cfg : QuotaConfig) (o : SizeOracle) (now : Int)
    (s : State) (r : Int) (h : now < s.SizeUpdateAt + cfg.LimitUpdateInterval) :
    (checkStorageSlow cfg o now s r).queries = 0 ∧
    (checkStorageSlow cfg o now s r).state = s := by
  unfold checkStorageSlow
  rw [if_neg (by omega)]
  split <;> simp

/-- A stale slow path issues exactly one query and stamps `SizeUpdateAt`. -/
lemma checkStorageSlow_stale (cfg : QuotaConfig) (o : SizeOracle) (now : Int)
    (s : State) (r : Int) (h : s.SizeUpdateAt + cfg.LimitUpdateInterval ≤ now) :
    (checkStorageSlow cfg o now s r).queries = 1 ∧
    (checkStorageSlow cfg o now s r).state.SizeUpdateAt = now := by
  unfold checkStorageSlow
  rw [if_pos h]
  rcases o with e | e | dsz <;> simp <;> split <;> simp

/-- A stale storage check whose catalog interaction fails returns that
error, stamps the timestamp, and leaves the cached size alone. -/
lemma checkStorage_stale_err (cfg : QuotaConfig) (e : Nat) (o : SizeOracle)
    (now : Int) (s : State) (r : Int)
    (hstale : s.SizeUpdateAt + cfg.LimitUpdateInterval ≤ now)
    (ho : o = SizeOracle.getTenantErr e ∨ o = SizeOracle.sizeErr e) :
    checkStorage cfg o now s r =
      { err := some (QuotaError.collab e), state := { s with SizeUpdateAt := now },
        queries := 1 } := by
  unfold checkStorage checkStorageSlow
  rw [if_neg (by omega), if_pos hstale]
  rcases ho with h | h <;> subst h <;> rfl

/-- When both token checks pass, `check` is the storage check on the state
with one rate token and `r` throughput tokens consumed. -/
lemma check_pass (cfg : QuotaConfig) (o : SizeOracle) (now : Int) (s : State)
    (r : Int) (hr : (1 : Int) ≤ s.Rate.tokens) (hw : r ≤ s.WriteThroughput.tokens) :
    check cfg o now s r =
      checkStorage cfg o now
        { s with
            Rate := { s.Rate with tokens := s.Rate.tokens - 1 },
            WriteThroughput :=
              { s.WriteThroughput with tokens := s.WriteThroughput.tokens - r } } r := by
  simp [check, Limiter.allow, Limiter.allowN, hr, hw]

/-- The state returned by `Allow` as a function of the enabled flag. -/
lemma allow_state_eq (dc c : QuotaConfig) (mc : MetricCatalog) (o : SizeOracle)
    (now : Int) (s : State) (r : Int) :
    (Allow dc c mc o now s r).state =
      if dc.Enabled = true then (check c o now (updateTenantMetrics c mc now s).1 r).state
      else (updateTenantMetrics c mc now s).1 := by
  unfold Allow
  by_cases hd : dc.Enabled = true <;> simp [hd]

/-- Claim C1: whenever the storage check decides on a size `sz` — the cached
size on the fast path, or the freshly stored authoritative size after a
refresh — it fails with `StorageSizeExceeded` iff `sz + reqSize >=
DataSizeLimit` and succeeds otherwise; equality with `DataSizeLimit` is
already rejected. -/
theorem checkStorage_limit_exclusive (cfg : QuotaConfig) (oracle : SizeOracle)
    (now : Int) (s : State) (reqSize dsz : Int) :
    (now < s.SizeUpdateAt + cfg.LimitUpdateInterval →
      ((checkStorage cfg oracle now s reqSize).err = some QuotaError.storageSizeExceeded ↔
        cfg.DataSizeLimit ≤ s.Size + reqSize) ∧
      ((checkStorage cfg oracle now s reqSize).err = none ↔
        s.Size + reqSize < cfg.DataSizeLimit)) ∧
    (¬ now < s.SizeUpdateAt + cfg.LimitUpdateInterval →
      ((checkStorage cfg (SizeOracle.ok dsz) now s reqSize).err = some QuotaError.storageSizeExceeded ↔
        cfg.DataSizeLimit ≤ dsz + reqSize) ∧
      ((checkStorage cfg (SizeOracle.ok dsz) now s reqSize).err = none ↔
        dsz + reqSize < cfg.DataSizeLimit)) ∧
    (now < s.SizeUpdateAt + cfg.LimitUpdateInterval →
      s.Size + reqSize = cfg.DataSizeLimit →
      (checkStorage cfg oracle now s reqSize).err = some QuotaError.storageSizeExceeded) := by
  unfold checkStorage checkStorageSlow
  refine ⟨fun h => ?_, fun h => ?_, fun h he => ?_⟩
  · rw [if_pos h]
    split_ifs with h2 <;> simp <;> omega
  · rw [if_neg h, if_pos (by omega)]
    by_cases h2 : cfg.DataSizeLimit ≤ dsz + reqSize <;> simp [h2] <;> omega
  · rw [if_pos h, if_pos (by omega)]

/-- Claim C2: with the process-global `Enabled` flag false, `Allow` returns
success for every request size, consumes no tokens and performs no quota
checks (no catalog query, enforcement cache untouched). -/
theorem allow_disabled_bypass (dc c : QuotaConfig) (mc : MetricCatalog)
    (o : SizeOracle) (now : Int) (s : State) (reqSize : Int)
    (h : dc.Enabled = false) :
    (Allow dc c mc o now s reqSize).err = none ∧
    (Allow dc c mc o now s reqSize).state.Rate = s.Rate ∧
    (Allow dc c mc o now s reqSize).state.WriteThroughput = s.WriteThroughput ∧
    (Allow dc c mc o now s reqSize).state.Size = s.Size ∧
    (Allow dc c mc o now s reqSize).state.SizeUpdateAt = s.SizeUpdateAt ∧
    (Allow dc c mc o now s reqSize).queries = 0 := by
  obtain ⟨h1, h2, _, h4, h5⟩ := updateTenantMetrics_fst_frame c mc now s
  unfold Allow
  simp [h, h1, h2, h4, h5]

theorem allow_disabled_bypass_witness :
    (Allow sampleCfgOff sampleCfgOn sampleCatalog (SizeOracle.ok 5) 100 sampleState 999999999).err = none ∧
    (Allow sampleCfgOff sampleCfgOn sampleCatalog (SizeOracle.ok 5) 100 sampleState 999999999).state.Rate = sampleState.Rate ∧
    (Allow sampleCfgOff sampleCfgOn sampleCatalog (SizeOracle.ok 5) 100 sampleState 999999999).state.WriteThroughput = sampleState.WriteThroughput ∧
    (Allow sampleCfgOff sampleCfgOn sampleCatalog (SizeOracle.ok 5) 100 sampleState 999999999).state.Size = sampleState.Size ∧
    (Allow sampleCfgOff sampleCfgOn sampleCatalog (SizeOracle.ok 5) 100 sampleState 999999999).state.SizeUpdateAt = sampleState.SizeUpdateAt ∧
    (Allow sampleCfgOff sampleCfgOn sampleCatalog (SizeOracle.ok 5) 100 sampleState 999999999).queries = 0 :=
  allow_disabled_bypass sampleCfgOff sampleCfgOn sampleCatalog (SizeOracle.ok 5) 100
    sampleState 999999999 rfl

/-- Claim C3: `check` runs the rate check, then the throughput check, then
the storage check.  A rate rejection leaves the whole state untouched and
issues no query; a throughput rejection has consumed exactly one rate token
while the failed `AllowN` leaves the throughput bucket unchanged and the
storage check never runs; when both token checks pass, the storage check
runs on the state with one rate token and `reqSize` throughput tokens
consumed. -/
theorem check_order_and_tokens (cfg : QuotaConfig) (o : SizeOracle) (now : Int)
    (s : State) (reqSize : Int) :
    (s.Rate.tokens < 1 →
      (check cfg o now s reqSize).err = some QuotaError.rateExceeded ∧
      (check cfg o now s reqSize).state = s ∧
      (check cfg o now s reqSize).queries = 0) ∧
    (1 ≤ s.Rate.tokens → s.WriteThroughput.tokens < reqSize →
      (check cfg o now s reqSize).err = some QuotaError.throughputExceeded ∧
      (check cfg o now s reqSize).state.Rate.tokens = s.Rate.tokens - 1 ∧
      (check cfg o now s reqSize).state.WriteThroughput = s.WriteThroughput ∧
      (check cfg o now s reqSize).state.Size = s.Size ∧
      (check cfg o now s reqSize).state.SizeUpdateAt = s.SizeUpdateAt ∧
      (check cfg o now s reqSize).queries = 0) ∧
    (1 ≤ s.Rate.tokens → reqSize ≤ s.WriteThroughput.tokens →
      check cfg o now s reqSize =
        checkStorage cfg o now
          { s with
              Rate := { s.Rate with tokens := s.Rate.tokens - 1 },
              WriteThroughput :=
                { s.WriteThroughput with tokens := s.WriteThroughput.tokens - reqSize } }
          reqSize) := by
  refine ⟨fun h => ?_, fun h1 h2 => ?_, fun h1 h2 => ?_⟩
  · have hr : ¬ (1 : Int) ≤ s.Rate.tokens := by omega
    simp [check, Limiter.allow, Limiter.allowN, hr]
  · have hr : (1 : Int) ≤ s.Rate.tokens := h1
    have hw : ¬ reqSize ≤ s.WriteThroughput.tokens := by omega
    simp [check, Limiter.allow, Limiter.allowN, hr, hw]
  · have hr : (1 : Int) ≤ s.Rate.tokens := h1
    simp [check, Limiter.allow, Limiter.allowN, hr, h2]

/-- Claim C6: the metric-refresh debounce is invoked before the `Enabled`
flag is consulted, so the emissions of `Allow` are those of
`updateTenantMetrics` for every value of the flag; and the error returned
by `Allow` is the same for every metric catalog, so no failure on the
metric path ever changes the admission verdict. -/
theorem allow_metrics_always_and_swallowed (dc c : QuotaConfig)
    (mc mc' : MetricCatalog) (o : SizeOracle) (now : Int) (s : State)
    (reqSize : Int) :
    (Allow dc c mc o now s reqSize).emissions = (updateTenantMetrics c mc now s).2 ∧
    (Allow dc c mc o now s reqSize).err = (Allow dc c mc' o now s reqSize).err := by
  constructor
  · unfold Allow
    split <;> rfl
  · by_cases hd : dc.Enabled <;>
      simp [Allow, hd, updateTenantMetrics_fst_indep c mc mc' now s]

/-- Claim C10: the enabled/disabled decision of `Allow` reads the
process-global default configuration, not the `Enabled` field of the config
stored by `Init`: the result is independent of the stored config's
`Enabled`, the bypass follows the global flag even when the stored config
says otherwise, and the limiter rates and bursts of a fresh state do come
from the stored config. -/
theorem allow_enabled_from_default_config (dc c : QuotaConfig) (b : Bool)
    (mc : MetricCatalog) (o : SizeOracle) (now : Int) (s : State) (reqSize : Int) :
    Allow dc { c with Enabled := b } mc o now s reqSize = Allow dc c mc o now s reqSize ∧
    (dc.Enabled = false →
      (Allow dc { c with Enabled := true } mc o now s reqSize).err = none) ∧
    (dc.Enabled = true →
      Allow dc { c with Enabled := false } mc o now s reqSize =
        { err := (check c o now (updateTenantMetrics c mc now s).1 reqSize).err,
          state := (check c o now (updateTenantMetrics c mc now s).1 reqSize).state,
          queries := (check c o now (updateTenantMetrics c mc now s).1 reqSize).queries,
          emissions := (updateTenantMetrics c mc now s).2 }) ∧
    (newState c).Rate.limitPerSec = c.RateLimit ∧
    (newState c).Rate.burst = 10 ∧
    (newState c).WriteThroughput.limitPerSec = c.WriteThroughputLimit ∧
    (newState c).WriteThroughput.burst = c.WriteThroughputLimit ∧
    (newState c).ReadThroughput.limitPerSec = c.ReadThroughputLimit := by
  refine ⟨rfl, fun h => ?_, fun h => ?_, rfl, rfl, rfl, rfl, rfl⟩
  · unfold Allow
    rw [h]
    rfl
  · unfold Allow
    rw [h]
    rfl

/-- Claim C4: when the enforcement refresh's catalog interaction
(`GetTenant` or `tenant.Size`) fails with `E`, `Allow` returns `E` itself,
the cached `Size` is unchanged, `SizeUpdateAt` has been advanced to the
current timestamp, and any later storage check within `LimitUpdateInterval`
takes the fast path: no catalog query, decided on the old cached value. -/
theorem allow_refresh_error_propagates (dc c : QuotaConfig) (mc : MetricCatalog)
    (e : Nat) (o o2 : SizeOracle) (now now2 : Int) (s : State) (reqSize r2 : Int)
    (hen : dc.Enabled = true)
    (hrate : (1 : Int) ≤ s.Rate.tokens)
    (hwt : reqSize ≤ s.WriteThroughput.tokens)
    (hstale : s.SizeUpdateAt + c.LimitUpdateInterval ≤ now)
    (ho : o = SizeOracle.getTenantErr e ∨ o = SizeOracle.sizeErr e) :
    (Allow dc c mc o now s reqSize).err = some (QuotaError.collab e) ∧
    (Allow dc c mc o now s reqSize).state.Size = s.Size ∧
    (Allow dc c mc o now s reqSize).state.SizeUpdateAt = now ∧
    (now2 < now + c.LimitUpdateInterval →
      (checkStorage c o2 now2 (Allow dc c mc o now s reqSize).state r2).queries = 0 ∧
      (checkStorage c o2 now2 (Allow dc c mc o now s reqSize).state r2).state.Size = s.Size) := by
  obtain ⟨f1, f2, f3, f4, f5⟩ := updateTenantMetrics_fst_frame c mc now s
  have hallow : Allow dc c mc o now s reqSize =
      { err := (check c o now (updateTenantMetrics c mc now s).1 reqSize).err,
        state := (check c o now (updateTenantMetrics c mc now s).1 reqSize).state,
        queries := (check c o now (updateTenantMetrics c mc now s).1 reqSize).queries,
        emissions := (updateTenantMetrics c mc now s).2 } := by
    unfold Allow
    rw [hen]
    rfl
  have hcheck := check_pass c o now (updateTenantMetrics c mc now s).1 reqSize
    (by rw [f1]; exact hrate) (by rw [f2]; exact hwt)
  have hcs := checkStorage_stale_err c e o now
    { (updateTenantMetrics c mc now s).1 with
        Rate := { (updateTenantMetrics c mc now s).1.Rate with
                    tokens := (updateTenantMetrics c mc now s).1.Rate.tokens - 1 },
        WriteThroughput :=
          { (updateTenantMetrics c mc now s).1.WriteThroughput with
              tokens := (updateTenantMetrics c mc now s).1.WriteThroughput.tokens - reqSize } }
    reqSize (by show (updateTenantMetrics c mc now s).1.SizeUpdateAt + _ ≤ _; rw [f5]; exact hstale) ho
  have hres : Allow dc c mc o now s reqSize =
      { err := some (QuotaError.collab e),
        state :=
          { (updateTenantMetrics c mc now s).1 with
              Rate := { (updateTenantMetrics c mc now s).1.Rate with
                          tokens := (updateTenantMetrics c mc now s).1.Rate.tokens - 1 },
              WriteThroughput :=
                { (updateTenantMetrics c mc now s).1.WriteThroughput with
                    tokens := (updateTenantMetrics c mc now s).1.WriteThroughput.tokens - reqSize },
              SizeUpdateAt := now },
        queries := 1,
        emissions := (updateTenantMetrics c mc now s).2 } := by
    rw [hallow, hcheck, hcs]
  refine ⟨by rw [hres], by rw [hres]; simpa using f4, by rw [hres], fun h2 => ?_⟩
  have hfast := checkStorage_fast c o2 now2 (Allow dc c mc o now s reqSize).state r2
    (by rw [hres]; simpa using h2)
  refine ⟨hfast.1, ?_⟩
  rw [hfast.2, hres]
  simpa using f4

theorem allow_refresh_error_propagates_witness :
    (Allow sampleCfgOn sampleCfgOn sampleCatalog (SizeOracle.getTenantErr 7) 100 sampleState 1).err =
      some (QuotaError.collab 7) ∧
    (Allow sampleCfgOn sampleCfgOn sampleCatalog (SizeOracle.getTenantErr 7) 100 sampleState 1).state.Size =
      sampleState.Size ∧
    (Allow sampleCfgOn sampleCfgOn sampleCatalog (SizeOracle.getTenantErr 7) 100 sampleState 1).state.SizeUpdateAt =
      100 ∧
    ((120 : Int) < 100 + sampleCfgOn.LimitUpdateInterval →
      (checkStorage sampleCfgOn (SizeOracle.ok 9) 120
        (Allow sampleCfgOn sampleCfgOn sampleCatalog (SizeOracle.getTenantErr 7) 100 sampleState 1).state 2).queries = 0 ∧
      (checkStorage sampleCfgOn (SizeOracle.ok 9) 120
        (Allow sampleCfgOn sampleCfgOn sampleCatalog (SizeOracle.getTenantErr 7) 100 sampleState 1).state 2).state.Size =
        sampleState.Size) :=
  allow_refresh_error_propagates sampleCfgOn sampleCfgOn sampleCatalog 7
    (SizeOracle.getTenantErr 7) (SizeOracle.ok 9) 100 120 sampleState 1 2
    rfl (by decide) (by decide) (by decide) (Or.inl rfl)

/-- No catalog query is issued by a sequence of storage checks that all
see a fresh timestamp. -/
lemma runStorage_fresh_zero (cfg : QuotaConfig) (calls : List StorageCall) (s : State)
    (h : ∀ cl ∈ calls, cl.now < s.SizeUpdateAt + cfg.LimitUpdateInterval) :
    (runStorage cfg calls s).2 = 0 := by
  induction calls with
  | nil => rfl
  | cons cl rest ih =>
    obtain ⟨hq, hs⟩ := checkStorage_fast cfg cl.oracle cl.now s cl.reqSize
      (h cl (List.mem_cons_self _ _))
    have hrest := ih (fun x hx => h x (List.mem_cons_of_mem _ hx))
    simp [runStorage, hq, hs, hrest]

/-- Over any window shorter than `LimitUpdateInterval`, a serialized
sequence of storage checks issues at most one catalog query. -/
lemma runStorage_le_one (cfg : QuotaConfig) (lo : Int) (calls : List StorageCall)
    (s : State)
    (hw : ∀ cl ∈ calls, lo ≤ cl.now ∧ cl.now < lo + cfg.LimitUpdateInterval) :
    (runStorage cfg calls s).2 ≤ 1 := by
  revert hw
  induction calls generalizing s with
  | nil =>
    intro hw
    simp [runStorage]
  | cons cl rest ih =>
    intro hw
    have hwrest : ∀ x ∈ rest, lo ≤ x.now ∧ x.now < lo + cfg.LimitUpdateInterval :=
      fun x hx => hw x (List.mem_cons_of_mem _ hx)
    by_cases hf : cl.now < s.SizeUpdateAt + cfg.LimitUpdateInterval
    · obtain ⟨hq, hs⟩ := checkStorage_fast cfg cl.oracle cl.now s cl.reqSize hf
      simpa [runStorage, hq, hs] using ih s hwrest
    · have hcs : checkStorage cfg cl.oracle cl.now s cl.reqSize =
          checkStorageSlow cfg cl.oracle cl.now s cl.reqSize := by
        unfold checkStorage
        rw [if_neg hf]
      obtain ⟨hq, hsu⟩ := checkStorageSlow_stale cfg cl.oracle cl.now s cl.reqSize (by omega)
      have hz : (runStorage cfg rest
          (checkStorageSlow cfg cl.oracle cl.now s cl.reqSize).state).2 = 0 := by
        apply runStorage_fresh_zero
        intro x hx
        have h1 := hwrest x hx
        have h2 := hw cl (List.mem_cons_self _ _)
        rw [hsu]
        omega
      simp [runStorage, hcs, hq, hz]

/-- Claim C5: a storage check whose timestamp is fresh issues no catalog
query; the slow path re-tests the staleness predicate under `SizeLock`, so
a caller that finds the timestamp already refreshed skips the query and
leaves the state untouched; consequently, over any window shorter than
`LimitUpdateInterval`, a serialized sequence of storage checks on one
tenant issues at most one catalog size query. -/
theorem storage_refresh_debounce (cfg : QuotaConfig) (calls : List StorageCall)
    (s : State) (lo : Int)
    (hw : ∀ cl ∈ calls, lo ≤ cl.now ∧ cl.now < lo + cfg.LimitUpdateInterval) :
    (∀ (o : SizeOracle) (now r : Int), now < s.SizeUpdateAt + cfg.LimitUpdateInterval →
      (checkStorage cfg o now s r).queries = 0) ∧
    (∀ (s' : State) (o : SizeOracle) (now r : Int),
      now < s'.SizeUpdateAt + cfg.LimitUpdateInterval →
      (checkStorageSlow cfg o now s' r).queries = 0 ∧
      (checkStorageSlow cfg o now s' r).state = s') ∧
    (runStorage cfg calls s).2 ≤ 1 :=
  ⟨fun o now r h => (checkStorage_fast cfg o now s r h).1,
   fun s' o now r h => checkStorageSlow_fresh cfg o now s' r h,
   runStorage_le_one cfg lo calls s hw⟩

theorem storage_refresh_debounce_witness :
    (∀ (o : SizeOracle) (now r : Int),
      now < sampleState.SizeUpdateAt + sampleCfgOn.LimitUpdateInterval →
      (checkStorage sampleCfgOn o now sampleState r).queries = 0) ∧
    (∀ (s' : State) (o : SizeOracle) (now r : Int),
      now < s'.SizeUpdateAt + sampleCfgOn.LimitUpdateInterval →
      (checkStorageSlow sampleCfgOn o now s' r).queries = 0 ∧
      (checkStorageSlow sampleCfgOn o now s' r).state = s') ∧
    (runStorage sampleCfgOn sampleCalls sampleState).2 ≤ 1 :=
  storage_refresh_debounce sampleCfgOn sampleCalls sampleState 100 (by decide)

/-- Claim C7 counterexample: a metrics refresh that passes the staleness
check (`TenantSizeUpdateAt = 0`, interval 60, `now = 100`) but whose
`GetTenant` call fails emits only the cached namespace size `5`: the
database walk and the final authoritative namespace-size emission do not
happen, so the claimed "final authoritative namespace-size emission always
occurs" is false on the code. -/
theorem metrics_final_emission_cex :
    cexState.TenantSizeUpdateAt + sampleCfgOn.TenantSizeRefreshInterval ≤ 100 ∧
    (updateTenantMetrics sampleCfgOn cexCatalog 100 cexState).2 = [Emission.ns 5] := by
  constructor
  · decide
  · rfl

/-- A database walk over databases that all resolve runs to completion and
emits exactly the per-database blocks in order. -/
lemma walkDbs_ok (dbs : List DbData) (h : ∀ d ∈ dbs, d.getErr = none) :
    walkDbs dbs = (allDbEmissions dbs, true) := by
  induction dbs with
  | nil => rfl
  | cons d rest ih =>
    have hd := h d (List.mem_cons_self _ _)
    have hrest := ih (fun x hx => h x (List.mem_cons_of_mem _ hx))
    simp [walkDbs, hd, hrest, allDbEmissions]

/-- Claim C7 (amended): a metrics refresh that passes the staleness check
emits the cached size first; when the transaction manager is present,
`GetTenant` succeeds and every `GetDatabase` succeeds, the per-database and
per-collection emissions follow in catalog order and the freshly re-read
authoritative tenant size is emitted last.  (When `GetTenant` or a
`GetDatabase` fails, or the transaction manager is nil, the walk aborts
early — errors are only logged — and the final emission is skipped.) -/
theorem metrics_emission_order (c : QuotaConfig) (mc : MetricCatalog)
    (t : TenantData) (now : Int) (s : State)
    (hstale : s.TenantSizeUpdateAt + c.TenantSizeRefreshInterval ≤ now)
    (htx : mc.txMgrNil = false)
    (hok : mc.getTenant = TenantLookup.ok t)
    (hdbs : ∀ d ∈ t.dbs, d.getErr = none) :
    (updateTenantMetrics c mc now s).2 =
      Emission.ns s.Size :: (allDbEmissions t.dbs ++ [Emission.ns t.tenantSize]) := by
  unfold updateTenantMetrics updateTenantSize
  rw [if_pos hstale]
  simp [htx, hok, walkDbs_ok t.dbs hdbs]

theorem metrics_emission_order_witness :
    (updateTenantMetrics sampleCfgOn sampleCatalog 100 sampleState).2 =
      Emission.ns sampleState.Size ::
        (allDbEmissions sampleTenant.dbs ++ [Emission.ns sampleTenant.tenantSize]) :=
  metrics_emission_order sampleCfgOn sampleCatalog sampleTenant 100 sampleState
    (by decide) rfl rfl (by decide)

/-- The metrics debounce never decreases `TenantSizeUpdateAt` when the
configured interval is non-negative. -/
lemma updateTenantMetrics_tsu (c : QuotaConfig) (mc : MetricCatalog) (now : Int)
    (s : State) (hT : 0 ≤ c.TenantSizeRefreshInterval) :
    s.TenantSizeUpdateAt ≤ (updateTenantMetrics c mc now s).1.TenantSizeUpdateAt := by
  unfold updateTenantMetrics
  split
  · next h =>
    simp
    omega
  · simp

/-- The storage check never decreases `SizeUpdateAt` (non-negative
interval) and never writes `TenantSizeUpdateAt`. -/
lemma checkStorage_sua (cfg : QuotaConfig) (o : SizeOracle) (now : Int) (s : State)
    (r : Int) (hI : 0 ≤ cfg.LimitUpdateInterval) :
    s.SizeUpdateAt ≤ (checkStorage cfg o now s r).state.SizeUpdateAt ∧
    (checkStorage cfg o now s r).state.TenantSizeUpdateAt = s.TenantSizeUpdateAt := by
  unfold checkStorage checkStorageSlow
  split
  · split <;> simp
  · next h =>
    rw [if_pos (by omega)]
    rcases o with e | e | dsz <;> simp <;> first | omega | (constructor <;> split <;> simp <;> omega)

/-- `check` never decreases `SizeUpdateAt` and never writes
`TenantSizeUpdateAt`. -/
lemma check_timestamps (cfg : QuotaConfig) (o : SizeOracle) (now : Int) (s : State)
    (r : Int) (hI : 0 ≤ cfg.LimitUpdateInterval) :
    s.SizeUpdateAt ≤ (check cfg o now s r).state.SizeUpdateAt ∧
    (check cfg o now s r).state.TenantSizeUpdateAt = s.TenantSizeUpdateAt := by
  by_cases h1 : (1 : Int) ≤ s.Rate.tokens
  · by_cases h2 : r ≤ s.WriteThroughput.tokens
    · rw [check_pass cfg o now s r h1 h2]
      exact checkStorage_sua cfg o now _ r hI
    · simp [check, Limiter.allow, Limiter.allowN, h1, h2]
  · simp [check, Limiter.allow, Limiter.allowN, h1]

/-- `Allow` never decreases either timestamp. -/
lemma allow_timestamps (dc c : QuotaConfig) (mc : MetricCatalog) (o : SizeOracle)
    (now : Int) (s : State) (r : Int)
    (hI : 0 ≤ c.LimitUpdateInterval) (hT : 0 ≤ c.TenantSizeRefreshInterval) :
    s.SizeUpdateAt ≤ (Allow dc c mc o now s r).state.SizeUpdateAt ∧
    s.TenantSizeUpdateAt ≤ (Allow dc c mc o now s r).state.TenantSizeUpdateAt := by
  obtain ⟨f1, f2, f3, f4, f5⟩ := updateTenantMetrics_fst_frame c mc now s
  have htsu := updateTenantMetrics_tsu c mc now s hT
  have hc := check_timestamps c o now (updateTenantMetrics c mc now s).1 r hI
  constructor
  · rw [allow_state_eq]
    by_cases hd : dc.Enabled = true
    · rw [if_pos hd, ← f5]
      exact hc.1
    · rw [if_neg hd, f5]
  · rw [allow_state_eq]
    by_cases hd : dc.Enabled = true
    · rw [if_pos hd, hc.2]
      exact htsu
    · rw [if_neg hd]
      exact htsu

/-- One step of the operation sequence never decreases either timestamp. -/
lemma stepOp_timestamps (c : QuotaConfig) (s : State) (p : Int × ManagerOp)
    (hI : 0 ≤ c.LimitUpdateInterval) (hT : 0 ≤ c.TenantSizeRefreshInterval) :
    s.SizeUpdateAt ≤ (stepOp c s p).SizeUpdateAt ∧
    s.TenantSizeUpdateAt ≤ (stepOp c s p).TenantSizeUpdateAt := by
  obtain ⟨now, op⟩ := p
  cases op with
  | admission dc mc o reqSize => exact allow_timestamps dc c mc o now s reqSize hI hT
  | metricsRefresh mc =>
    obtain ⟨f1, f2, f3, f4, f5⟩ := updateTenantMetrics_fst_frame c mc now s
    exact ⟨le_of_eq f5.symm, updateTenantMetrics_tsu c mc now s hT⟩

/-- Timestamps are monotone across any operation sequence. -/
lemma runOps_timestamps (c : QuotaConfig) (ops : List (Int × ManagerOp)) (s : State)
    (hI : 0 ≤ c.LimitUpdateInterval) (hT : 0 ≤ c.TenantSizeRefreshInterval) :
    s.SizeUpdateAt ≤ (runOps c ops s).SizeUpdateAt ∧
    s.TenantSizeUpdateAt ≤ (runOps c ops s).TenantSizeUpdateAt := by
  induction ops generalizing s with
  | nil => exact ⟨le_rfl, le_rfl⟩
  | cons p rest ih =>
    have h1 := stepOp_timestamps c s p hI hT
    have h2 := ih (stepOp c s p)
    exact ⟨h1.1.trans h2.1, h1.2.trans h2.2⟩

/-- Claim C8: for every sequence of admission checks and metric refreshes
with non-decreasing clock readings and non-negative configured intervals,
`SizeUpdateAt` and `TenantSizeUpdateAt` never decrease. -/
theorem timestamps_monotone (c : QuotaConfig) (ops : List (Int × ManagerOp))
    (s : State)
    (hI : 0 ≤ c.LimitUpdateInterval) (hT : 0 ≤ c.TenantSizeRefreshInterval)
    (hclock : List.Chain' (fun a b => a.1 ≤ b.1) ops) :
    s.SizeUpdateAt ≤ (runOps c ops s).SizeUpdateAt ∧
    s.TenantSizeUpdateAt ≤ (runOps c ops s).TenantSizeUpdateAt :=
  runOps_timestamps c ops s hI hT

theorem timestamps_monotone_witness :
    sampleState.SizeUpdateAt ≤ (runOps sampleCfgOn sampleOps sampleState).SizeUpdateAt ∧
    sampleState.TenantSizeUpdateAt ≤
      (runOps sampleCfgOn sampleOps sampleState).TenantSizeUpdateAt :=
  timestamps_monotone sampleCfgOn sampleOps sampleState (by decide) (by decide)
    (by simp [sampleOps])

/-- Claim C9: the metrics path leaves the enforcement cache (`Size`,
`SizeUpdateAt`) and the limiters untouched; only `TenantSizeUpdateAt` may
be written (`updateTenantSize` itself takes no tenant state at all: it only
emits metrics). -/
theorem metrics_path_frame (c : QuotaConfig) (mc : MetricCatalog) (now : Int)
    (s : State) :
    (updateTenantMetrics c mc now s).1.Size = s.Size ∧
    (updateTenantMetrics c mc now s).1.SizeUpdateAt = s.SizeUpdateAt ∧
    (updateTenantMetrics c mc now s).1.Rate = s.Rate ∧
    (updateTenantMetrics c mc now s).1.WriteThroughput = s.WriteThroughput ∧
    (updateTenantMetrics c mc now s).1.ReadThroughput = s.ReadThroughput ∧
    ((updateTenantMetrics c mc now s).1 = s ∨
      (updateTenantMetrics c mc now s).1 = { s with TenantSizeUpdateAt := now }) := by
  obtain ⟨h1, h2, h3, h4, h5⟩ := updateTenantMetrics_fst_frame c mc now s
  refine ⟨h4, h5, h1, h2, h3, ?_⟩
  unfold updateTenantMetrics
  split
  · exact Or.inr rfl
  · exact Or.inl rfl

end Quota
